import Mathlib

/-!
Verification of the bot-hosting supervisor (`main.py`).

The Python program keeps all persistent worker state in nested dictionaries
(JSON documents).  We embed those dictionaries shallowly: a JSON-like value
type `JVal`, Python `dict`s as insertion-ordered association lists, and each
operation of `BotStateManager` / the supervisor functions translated
line-by-line from the source.  Python exceptions that can escape an operation
are modelled with `Except Unit`.
-/

namespace Hosters

/-- Model of a Python/JSON value as stored in the state and config documents. -/
inductive JVal where
  | s : String → JVal
  | i : Int → JVal
  | b : Bool → JVal
  | null : JVal
  | arr : List JVal → JVal
  | obj : List (String × JVal) → JVal

/-- Model of a Python `dict` with string keys: an insertion-ordered association list. -/
abbrev Jobj := List (String × JVal)

/-- Model of `d.get(k)` / `d[k]` on a Python dict (keys are unique in a real dict,
so reading the first matching entry is exact). -/
def dget {α : Type} : List (String × α) → String → Option α
  | [], _ => none
  | p :: d, k => if p.1 == k then some p.2 else dget d k

/-- Model of `d[k] = v` on a Python dict: replace the value in place if `k` is
present, otherwise append the new entry at the end (insertion order). -/
def dset {α : Type} : List (String × α) → String → α → List (String × α)
  | [], k, v => [(k, v)]
  | p :: d, k, v => if p.1 == k then (k, v) :: d else p :: dset d k v

/-- Python truthiness of a value, as used by `if bot_state.get('auto_restart', True)`. -/
def truthy : JVal → Bool
  | .b bv => bv
  | .s str => !(str == "")
  | .i n => !(n == 0)
  | .null => false
  | .arr l => !l.isEmpty
  | .obj d => !d.isEmpty

/-- Python comparison `v == t` between an arbitrary value `v` and a string
literal `t`: true exactly for the equal string (cross-type `==` is `False`). -/
def pyEqStr (v : JVal) (t : String) : Bool :=
  match v with
  | .s str => str == t
  | _ => false

/-- Contents of `state['bots']`: worker id → worker record.  Records written by
`update_bot_state` are always dicts, modelled as `Jobj`. -/
abbrev Bots := List (String × Jobj)

/-- Source `BotStateManager.get_bot_state` (main.py:156-158):
`return self.state.get('bots', {}).get(bot_id, {})`. -/
def get_bot_state (bots : Bots) (bot_id : String) : Jobj :=
  (dget bots bot_id).getD []

/-- Source `BotStateManager.get_auto_start_bots` (main.py:170-176): collect ids whose
record satisfies `bot_state.get('auto_restart', True)` (truthiness, default `True`
when the key is absent) and `bot_state.get('status') == 'running'`. -/
def get_auto_start_bots (bots : Bots) : List String :=
  (bots.filter (fun p =>
    truthy ((dget p.2 "auto_restart").getD (.b true)) &&
    pyEqStr ((dget p.2 "status").getD .null) "running")).map (·.1)

/-- The history entry built at main.py:131-135: `{'status': status,
'timestamp': ..., **kwargs}` (later duplicate keys in `kwargs` win). -/
def mkEntry (status now : String) (kwargs : List (String × JVal)) : Jobj :=
  kwargs.foldl (fun e p => dset e p.1 p.2) [("status", .s status), ("timestamp", .s now)]

/-- Truncation of the status history at main.py:143-144: if the list exceeds 50
entries keep only the last 50 (`history[-50:]`). -/
def capHist (l : List JVal) : List JVal :=
  if l.length > 50 then l.drop (l.length - 50) else l

/-- Record after main.py:116-128: the record is created if absent
(`{'id': bot_id, 'created_at': now, 'status_history': []}`), then
`bot_state['status'] = status` and `bot_state['last_updated'] = now`. -/
def baseRec (bots : Bots) (bot_id status now : String) : Jobj :=
  let rec0 : Jobj :=
    match dget bots bot_id with
    | some r => r
    | none => [("id", .s bot_id), ("created_at", .s now), ("status_history", .arr [])]
  dset (dset rec0 "status" (.s status)) "last_updated" (.s now)

/-- Lines main.py:147-148: `if auto_restart is not None: bot_state['auto_restart'] = auto_restart`. -/
def setAR (auto_restart : Option Bool) (r : Jobj) : Jobj :=
  match auto_restart with
  | some bv => dset r "auto_restart" (.b bv)
  | none => r

/-- Lines main.py:151-152: `for key, value in kwargs.items(): bot_state[key] = value`. -/
def mergeKw (kwargs : List (String × JVal)) (r : Jobj) : Jobj :=
  kwargs.foldl (fun r p => dset r p.1 p.2) r

/-- Source `BotStateManager.update_bot_state` (main.py:114-154).  The record is
created if absent; `status` and `last_updated` are set; a history entry is
appended and the history truncated to 50; `auto_restart` is set when the
argument is not `None`; every `kwargs` pair is merged into the record; finally
the state is persisted.  The three `datetime.now()` calls are modelled by the
single timestamp parameter `now`.  The only statement that can raise is the
`.append` on a `status_history` value that is not a list; that case is
`Except.error`. -/
def update_bot_state (bots : Bots) (bot_id status : String) (auto_restart : Option Bool)
    (kwargs : List (String × JVal)) (now : String) : Except Unit Bots :=
  let rec1 := baseRec bots bot_id status now
  let entry := mkEntry status now kwargs
  match dget rec1 "status_history" with
  | some (.arr hist) =>
    .ok (dset bots bot_id (mergeKw kwargs (setAR auto_restart
      (dset rec1 "status_history" (.arr (capHist (hist ++ [.obj entry])))))))
  | none =>
    .ok (dset bots bot_id (mergeKw kwargs (setAR auto_restart
      (dset rec1 "status_history" (.arr (capHist ([] ++ [.obj entry])))))))
  | some _ => .error ()

/-- The record stored for `bot_id` (empty dict if absent). -/
def getRec (bots : Bots) (bot_id : String) : Jobj :=
  (dget bots bot_id).getD []

/-- The status history stored for `bot_id` (empty if the record or the key is
absent or not a list). -/
def getHist (bots : Bots) (bot_id : String) : List JVal :=
  match dget (getRec bots bot_id) "status_history" with
  | some (.arr l) => l
  | _ => []

/-- Decides whether `update_bot_state` can run without raising for this id:
the record, when present, must not hold a non-list `status_history`. -/
def histOK (bots : Bots) (bot_id : String) : Bool :=
  match dget (getRec bots bot_id) "status_history" with
  | none => true
  | some (.arr _) => true
  | some _ => false

/-- Decides whether every record in the store types its `auto_restart` field
as a boolean (the only values the source itself ever writes there). -/
def arBoolOK (bots : Bots) : Bool :=
  bots.all (fun p =>
    match dget p.2 "auto_restart" with
    | none => true
    | some (.b _) => true
    | some _ => false)

/-- Python `str.split('.')` on the character list: splits at every dot,
keeping empty parts, and yields one (possibly empty) part for the empty
input. -/
def splitDots : List Char → List (List Char)
  | [] => [[]]
  | c :: cs =>
    if c == '.' then [] :: splitDots cs
    else
      match splitDots cs with
      | h :: t => (c :: h) :: t
      | [] => [[c]]

/-- Python `key.split('.')` as used by `set_config`/`get_config` (main.py:180,191). -/
def keySplit (key : String) : List String := (splitDots key.data).map (fun l => String.mk l)

/-- Python `str.lower()` (ASCII, which covers the fixed file names involved). -/
def strLower (s : String) : String := String.mk (s.data.map Char.toLower)

/-- Python suffix of a file name, following `pathlib.PurePath.suffix`: the part
from the last dot, unless that dot is the first or the last character. -/
def pySuffix (name : String) : String :=
  let parts := splitDots name.data
  if parts.length ≤ 1 then ""
  else
    let last := parts.getLastD []
    if last.isEmpty then ""
    else if name.data.length == last.length + 1 then ""
    else String.mk ('.' :: last)

/-- Eligibility test used at main.py:242-244 and main.py:369:
`file.suffix == '.py'`. -/
def isPy (name : String) : Bool := pySuffix name == ".py"

/-- The priority list of main.py:253. -/
def commonNames : List String := ["main.py", "bot.py", "app.py", "run.py", "start.py"]

/-- Entry-point resolution of main.py:240-264: filter the directory scan to
`.py` files; for each common name in priority order take the first file whose
lowercased name equals it; otherwise take the first `.py` file; `none` when the
directory has no `.py` file (the `error` transition path). -/
def resolve_entry (files : List String) : Option String :=
  let python_files := files.filter isPy
  if python_files.isEmpty then none
  else
    match commonNames.findSome? (fun n => python_files.find? (fun f => strLower f == n)) with
    | some f => some f
    | none => python_files.head?

/-- The `running` transition of main.py:297-325 (after the process spawn):
records `pid`, `start_time` and the resolved `command`; or, when the directory
has no `.py` files, the `error` transition of main.py:246-249. `files` is the
directory scan order of `bot_path.iterdir()` restricted to regular files. -/
def run_bot_start (bots : Bots) (bot_id python_executable : String)
    (files : List String) (pid : Int) (now : String) : Except Unit Bots :=
  match resolve_entry files with
  | none => update_bot_state bots bot_id "error" none [("error", .s "No Python files found")] now
  | some script =>
    update_bot_state bots bot_id "running" none
      [("pid", .i pid), ("start_time", .s now),
       ("command", .s (python_executable ++ " " ++ script))] now

/-- The exit handling of main.py:338-346: after `process.wait()`, exit code 0
records a `stopped` transition, any other code records `crashed`, both with
`exit_code` set to the code. -/
def run_bot_exit (bots : Bots) (bot_id : String) (return_code : Int) (now : String) :
    Except Unit Bots :=
  if return_code == 0 then
    update_bot_state bots bot_id "stopped" none [("exit_code", .i return_code)] now
  else
    update_bot_state bots bot_id "crashed" none [("exit_code", .i return_code)] now

/-- Result values of `start_bot_persistent` (the four message branches of
main.py:358-387). -/
inductive StartResult where
  | started
  | notFound
  | alreadyRunning
  | noScripts
  deriving DecidableEq

/-- Source `start_bot_persistent` (main.py:358-387).  Checks, in source order:
directory existence, presence in the running registry, presence of `.py`
files; then records a `starting` transition with the `auto_restart` flag and
spawns the `run_bot` thread.  The boolean in the result is true when a
ProcessRunner thread was spawned (which is also the only path that opens the
worker's log writer). -/
def start_bot_persistent (dirExists : Bool) (files : List String)
    (running : List String) (bots : Bots) (bot_id : String)
    (auto_restart : Bool) (now : String) :
    Except Unit (StartResult × Bots × Bool) :=
  if !dirExists then .ok (.notFound, bots, false)
  else if running.contains bot_id then .ok (.alreadyRunning, bots, false)
  else if (files.filter isPy).isEmpty then .ok (.noScripts, bots, false)
  else
    match update_bot_state bots bot_id "starting" (some auto_restart) [] now with
    | .ok bots' => .ok (.started, bots', true)
    | .error e => .error e

/-- Result values of `stop_bot_persistent` (main.py:389-413). -/
inductive StopResult where
  | stopped
  | notRunning
  deriving DecidableEq

/-- Source `stop_bot_persistent` (main.py:389-413).  Returns `notRunning` when
the id is not in the running registry, leaving everything untouched.
Otherwise terminates the process — any exception from terminate/wait/kill is
caught and only logged (main.py:397-405), which the `termRaises` parameter
records without affecting the continuation — deletes the registry entry and
records a `stopped` transition with `stopped_by='user'`. -/
def stop_bot_persistent (termRaises : Bool) (running : List String) (bots : Bots)
    (bot_id : String) (now : String) :
    Except Unit (StopResult × List String × Bots) :=
  if !(running.contains bot_id) then .ok (.notRunning, running, bots)
  else
    let _ := termRaises
    let running' := if running.contains bot_id then running.erase bot_id else running
    match update_bot_state bots bot_id "stopped" none [("stopped_by", .s "user")] now with
    | .ok bots' => .ok (.stopped, running', bots')
    | .error e => .error e

/-- Character-list prefix test (needle, haystack). -/
def chPre : List Char → List Char → Bool
  | [], _ => true
  | _ :: _, [] => false
  | a :: as, c :: cs => a == c && chPre as cs

/-- Character-list substring test (needle, haystack). -/
def chSub (n : List Char) : List Char → Bool
  | [] => n.isEmpty
  | c :: cs => chPre n (c :: cs) || chSub n cs

/-- Python `needle in hay` on strings: substring containment. -/
def strContains (hay needle : String) : Bool := chSub needle.data hay.data

/-- Python `k in v` for the values that can appear in the config document:
key lookup on dicts, substring test on strings, membership on lists, and a
`TypeError` on numbers, booleans and `None`. -/
def pyIn (k : String) (v : JVal) : Except Unit Bool :=
  match v with
  | .obj d => .ok (dget d k).isSome
  | .s str => .ok (strContains str k)
  | .arr l => .ok (l.any (fun x => pyEqStr x k))
  | .i _ => .error ()
  | .b _ => .error ()
  | .null => .error ()

/-- The loop of `BotStateManager.get_config` (main.py:189-197): walk the key
parts; a missing key returns the default; indexing a non-dict with a string
key raises `TypeError` (`Except.error`). -/
def get_config_go (config : JVal) (keys : List String) (dflt : JVal) : Except Unit JVal :=
  match keys with
  | [] => .ok config
  | k :: rest =>
    match pyIn k config with
    | .error e => .error e
    | .ok false => .ok dflt
    | .ok true =>
      match config with
      | .obj d => get_config_go ((dget d k).getD .null) rest dflt
      | _ => .error ()

/-- Source `BotStateManager.get_config` (main.py:189-197): split the dotted key
and walk. -/
def get_config (config : Jobj) (key : String) (dflt : JVal) : Except Unit JVal :=
  get_config_go (.obj config) (keySplit key) dflt

/-- The loop of `BotStateManager.set_config` (main.py:178-187): walk
`keys[:-1]` creating missing intermediate dicts, then assign the last key.
Any existing non-dict intermediate value makes the remaining subscripting or
assignment raise `TypeError` (`Except.error`). -/
def set_config_go (config : Jobj) (keys : List String) (v : JVal) : Except Unit Jobj :=
  match keys with
  | [] => .ok config
  | [k] => .ok (dset config k v)
  | k :: rest =>
    match dget config k with
    | none =>
      match set_config_go [] rest v with
      | .ok d => .ok (dset config k (.obj d))
      | .error e => .error e
    | some (.obj d) =>
      match set_config_go d rest v with
      | .ok d' => .ok (dset config k (.obj d'))
      | .error e => .error e
    | some _ => .error ()

/-- Source `BotStateManager.set_config` (main.py:178-187): split the dotted
key and walk. -/
def set_config (config : Jobj) (key : String) (v : JVal) : Except Unit Jobj :=
  set_config_go config (keySplit key) v

/-- Decides that walking `keys[:-1]` from `config` never meets an existing
non-dict value — exactly the condition under which `set_config_go` succeeds. -/
def safePath (config : Jobj) (keys : List String) : Bool :=
  match keys with
  | [] => true
  | [_] => true
  | k :: rest =>
    match dget config k with
    | none => true
    | some (.obj d) => safePath d rest
    | some _ => false

/-- Decides that the dotted path is absent from `config` while every value
met on the walk is a dict: some key of the path is missing from the dict
reached at that point. -/
def absentPath (config : JVal) (keys : List String) : Bool :=
  match keys with
  | [] => false
  | k :: rest =>
    match config with
    | .obj d =>
      match dget d k with
      | none => true
      | some w => absentPath w rest
    | _ => false

/-! ## Association-list lemmas -/

@[simp] theorem dget_nil {α : Type} (k : String) : dget ([] : List (String × α)) k = none := rfl

theorem dget_dset_self {α : Type} (d : List (String × α)) (k : String) (v : α) :
    dget (dset d k v) k = some v := by
  induction d with
  | nil => simp [dget, dset]
  | cons p d ih =>
    by_cases h : p.1 = k
    · simp [dget, dset, h]
    · simp only [dset, beq_iff_eq, h, if_false, dget, if_neg h]
      exact ih

theorem dget_dset_ne {α : Type} (d : List (String × α)) (k k' : String) (v : α)
    (h : k' ≠ k) : dget (dset d k v) k' = dget d k' := by
  induction d with
  | nil => simp [dget, dset, beq_iff_eq, Ne.symm h]
  | cons p d ih =>
    by_cases hp : p.1 = k
    · simp [dget, dset, hp, beq_iff_eq, Ne.symm h, h]
    · simp only [dset, beq_iff_eq, hp, if_false, dget]
      by_cases hp' : p.1 = k'
      · simp [hp']
      · simp [hp', ih]

theorem dget_mergeKw_not_mem (kwargs : List (String × JVal)) (k : String)
    (h : ∀ p ∈ kwargs, p.1 ≠ k) (r : Jobj) :
    dget (mergeKw kwargs r) k = dget r k := by
  induction kwargs generalizing r with
  | nil => rfl
  | cons p kws ih =>
    have hp : p.1 ≠ k := h p (List.mem_cons_self p kws)
    have hrest : ∀ q ∈ kws, q.1 ≠ k := fun q hq => h q (List.mem_cons_of_mem p hq)
    simp only [mergeKw, List.foldl_cons] at *
    rw [ih hrest, dget_dset_ne _ _ _ _ (fun hk => hp hk.symm)]

theorem dget_mergeKw_congr (kwargs : List (String × JVal)) (k : String)
    (r1 r2 : Jobj) (h : dget r1 k = dget r2 k) :
    dget (mergeKw kwargs r1) k = dget (mergeKw kwargs r2) k := by
  induction kwargs generalizing r1 r2 with
  | nil => exact h
  | cons p kws ih =>
    simp only [mergeKw, List.foldl_cons] at *
    apply ih
    by_cases hk : k = p.1
    · subst hk
      rw [dget_dset_self, dget_dset_self]
    · rw [dget_dset_ne _ _ _ _ hk, dget_dset_ne _ _ _ _ hk, h]

theorem dget_mergeKw_isSome (kwargs : List (String × JVal)) (k : String)
    (r : Jobj) (h : (dget r k).isSome) :
    (dget (mergeKw kwargs r) k).isSome := by
  induction kwargs generalizing r with
  | nil => exact h
  | cons p kws ih =>
    simp only [mergeKw, List.foldl_cons] at *
    apply ih
    by_cases hk : k = p.1
    · subst hk
      simp [dget_dset_self]
    · rwa [dget_dset_ne _ _ _ _ hk]

/-! ## History-truncation lemmas -/

theorem capHist_length_le (l : List JVal) : (capHist l).length ≤ 50 := by
  unfold capHist
  by_cases hl : l.length > 50
  · rw [if_pos hl]
    simp only [List.length_drop]
    omega
  · rw [if_neg hl]
    omega

theorem capHist_suffix (l : List JVal) : capHist l <:+ l := by
  unfold capHist
  split
  · exact List.drop_suffix _ _
  · exact List.suffix_refl l

theorem capHist_concat (h : List JVal) (e : JVal) :
    ∃ h', capHist (h ++ [e]) = h' ++ [e] := by
  unfold capHist
  by_cases hl : (h ++ [e]).length > 50
  · rw [if_pos hl]
    have hle : (h ++ [e]).length - 50 ≤ h.length := by
      simp only [List.length_append, List.length_singleton]
      omega
    rw [List.drop_append_of_le_length hle]
    exact ⟨_, rfl⟩
  · rw [if_neg hl]
    exact ⟨h, rfl⟩

/-! ## `update_bot_state` lemmas -/

theorem dget_baseRec_status (bots : Bots) (bot_id status now : String) :
    dget (baseRec bots bot_id status now) "status" = some (.s status) := by
  unfold baseRec
  rw [dget_dset_ne _ _ _ _ (by decide), dget_dset_self]

theorem dget_setAR_ne (auto_restart : Option Bool) (r : Jobj) (k : String)
    (h : k ≠ "auto_restart") : dget (setAR auto_restart r) k = dget r k := by
  cases auto_restart with
  | none => rfl
  | some bv => exact dget_dset_ne _ _ _ _ h

/-- Branch analysis of the `status_history` lookup performed by
`update_bot_state`: on a well-formed state the value read from the working
record is exactly the stored history (or the key is absent and the stored
history is empty). -/
theorem update_ok_branches (bots : Bots) (bot_id status now : String)
    (hok : histOK bots bot_id = true) :
    dget (baseRec bots bot_id status now) "status_history" =
        some (.arr (getHist bots bot_id)) ∨
      (dget (baseRec bots bot_id status now) "status_history" = none ∧
        getHist bots bot_id = []) := by
  unfold histOK getRec at hok
  unfold baseRec getHist getRec
  rcases hb : dget bots bot_id with _ | r
  · rw [hb] at hok
    left
    rw [dget_dset_ne _ _ _ _ (by decide), dget_dset_ne _ _ _ _ (by decide)]
    simp [dget]
  · rw [hb] at hok
    rw [dget_dset_ne _ _ _ _ (by decide), dget_dset_ne _ _ _ _ (by decide)]
    rcases hh : dget r "status_history" with _ | v
    · right
      simp only [Option.getD_some] at *
      rw [hh]
      simp
    · simp only [Option.getD_some] at *
      rw [hh] at hok ⊢
      cases v <;> simp_all

/-- Workhorse: on a state whose record has a well-formed (or absent) history,
`update_bot_state` succeeds and its result is the faithful composition of the
source's record mutations. -/
theorem update_bot_state_ok (bots : Bots) (bot_id status : String)
    (auto_restart : Option Bool) (kwargs : List (String × JVal)) (now : String)
    (hok : histOK bots bot_id = true) :
    update_bot_state bots bot_id status auto_restart kwargs now =
      .ok (dset bots bot_id (mergeKw kwargs (setAR auto_restart
        (dset (baseRec bots bot_id status now) "status_history"
          (.arr (capHist (getHist bots bot_id ++ [.obj (mkEntry status now kwargs)]))))))) := by
  rcases update_ok_branches bots bot_id status now hok with h | ⟨h, hnil⟩
  · unfold update_bot_state
    simp only [h]
  · unfold update_bot_state
    simp only [h, hnil]

theorem getRec_dset (bots : Bots) (bot_id : String) (r : Jobj) :
    getRec (dset bots bot_id r) bot_id = r := by
  unfold getRec
  rw [dget_dset_self]
  rfl

theorem mergeKw_singleton (k : String) (v : JVal) (r : Jobj) :
    mergeKw [(k, v)] r = dset r k v := rfl

/-- The `status` field of the mutated record is the status argument, for every
`kwargs` list that does not itself write `status`. -/
theorem dget_mut_status (bots : Bots) (bot_id status now : String) (ar : Option Bool)
    (kwargs : List (String × JVal)) (X : JVal)
    (hks : ∀ p ∈ kwargs, p.1 ≠ "status") :
    dget (mergeKw kwargs (setAR ar
      (dset (baseRec bots bot_id status now) "status_history" X))) "status" =
      some (.s status) := by
  rw [dget_mergeKw_not_mem kwargs _ hks, dget_setAR_ne _ _ _ (by decide),
      dget_dset_ne _ _ _ _ (by decide), dget_baseRec_status]

/-- The stored history of the mutated record is exactly the list written by
the truncation step, for every `kwargs` list that does not itself write
`status_history`. -/
theorem getHist_after (bots : Bots) (bot_id status now : String) (ar : Option Bool)
    (kwargs : List (String × JVal)) (X : List JVal)
    (hkw : ∀ p ∈ kwargs, p.1 ≠ "status_history") :
    getHist (dset bots bot_id (mergeKw kwargs (setAR ar
      (dset (baseRec bots bot_id status now) "status_history" (.arr X))))) bot_id = X := by
  unfold getHist
  rw [getRec_dset, dget_mergeKw_not_mem kwargs _ hkw, dget_setAR_ne _ _ _ (by decide),
    dget_dset_self]

/-! ## Config lemmas -/

theorem safePath_nil (keys : List String) : safePath [] keys = true := by
  cases keys with
  | nil => rfl
  | cons k rest =>
    cases rest with
    | nil => rfl
    | cons k2 r => rfl

theorem splitDots_ne_nil (cs : List Char) : splitDots cs ≠ [] := by
  cases cs with
  | nil => simp [splitDots]
  | cons c cs =>
    unfold splitDots
    split
    · simp
    · split <;> simp

theorem keySplit_ne_nil (key : String) : keySplit key ≠ [] := by
  unfold keySplit
  simp [splitDots_ne_nil]

theorem get_config_go_cons (config : JVal) (k : String) (rest : List String) (dflt : JVal) :
    get_config_go config (k :: rest) dflt =
      match pyIn k config with
      | .error e => .error e
      | .ok false => .ok dflt
      | .ok true =>
        match config with
        | .obj d => get_config_go ((dget d k).getD .null) rest dflt
        | _ => .error () := rfl

theorem set_config_go_cons2 (config : Jobj) (k k2 : String) (rest : List String) (v : JVal) :
    set_config_go config (k :: k2 :: rest) v =
      match dget config k with
      | none =>
        match set_config_go [] (k2 :: rest) v with
        | .ok d => .ok (dset config k (.obj d))
        | .error e => .error e
      | some (.obj d) =>
        match set_config_go d (k2 :: rest) v with
        | .ok d' => .ok (dset config k (.obj d'))
        | .error e => .error e
      | some _ => .error () := rfl

/-- A safe walk makes `set_config_go` succeed, and reading the same key path
back from the result yields the written value. -/
theorem set_get_safe (keys : List String) : ∀ (config : Jobj) (v dflt : JVal),
    keys ≠ [] → safePath config keys = true →
    ∃ config', set_config_go config keys v = .ok config' ∧
      get_config_go (.obj config') keys dflt = .ok v := by
  induction keys with
  | nil => exact fun c v d h _ => absurd rfl h
  | cons k rest ih =>
    intro config v dflt _ hsafe
    rcases rest with _ | ⟨k2, rest'⟩
    · refine ⟨dset config k v, rfl, ?_⟩
      rw [get_config_go_cons]
      simp only [pyIn, dget_dset_self, Option.isSome_some, Option.getD_some]
      rfl
    · unfold safePath at hsafe
      rcases hg : dget config k with _ | w
      · obtain ⟨c1, hset, hget⟩ := ih [] v dflt (by simp) (safePath_nil _)
        refine ⟨dset config k (.obj c1), ?_, ?_⟩
        · rw [set_config_go_cons2, hg, hset]
        · rw [get_config_go_cons]
          simp only [pyIn, dget_dset_self, Option.isSome_some, Option.getD_some]
          exact hget
      · rw [hg] at hsafe
        cases w with
        | obj d =>
          obtain ⟨c1, hset, hget⟩ := ih d v dflt (by simp) hsafe
          refine ⟨dset config k (.obj c1), ?_, ?_⟩
          · simp only [set_config_go_cons2, hg, hset]
          · rw [get_config_go_cons]
            simp only [pyIn, dget_dset_self, Option.isSome_some, Option.getD_some]
            exact hget
        | s str => simp at hsafe
        | i n => simp at hsafe
        | b bv => simp at hsafe
        | null => simp at hsafe
        | arr l => simp at hsafe

/-- A path that is absent behind dict-only intermediate nodes makes
`get_config_go` return the default, without raising. -/
theorem get_absent (keys : List String) : ∀ (v dflt : JVal),
    absentPath v keys = true → get_config_go v keys dflt = .ok dflt := by
  induction keys with
  | nil =>
    intro v d h
    simp [absentPath] at h
  | cons k rest ih =>
    intro v dflt h
    unfold absentPath at h
    cases v with
    | obj d =>
      replace h : (match dget d k with
        | none => true
        | some w => absentPath w rest) = true := h
      rcases hg : dget d k with _ | w
      · rw [get_config_go_cons]
        simp only [pyIn, hg, Option.isSome_none]
      · rw [hg] at h
        rw [get_config_go_cons]
        simp only [pyIn, hg, Option.isSome_some, Option.getD_some]
        exact ih w dflt h
    | s str => simp at h
    | i n => simp at h
    | b bv => simp at h
    | null => simp at h
    | arr l => simp at h

theorem mergeKw_cons (p : String × JVal) (kws : List (String × JVal)) (r : Jobj) :
    mergeKw (p :: kws) r = mergeKw kws (dset r p.1 p.2) := rfl

theorem findSome?_cons_none {α β : Type} (f : α → Option β) (a : α) (l : List α)
    (h : f a = none) : List.findSome? f (a :: l) = List.findSome? f l := by
  rw [List.findSome?_cons, h]

theorem findSome?_cons_some {α β : Type} (f : α → Option β) (a : α) (b : β) (l : List α)
    (h : f a = some b) : List.findSome? f (a :: l) = some b := by
  rw [List.findSome?_cons, h]

theorem singleton_kw_ne (k k' : String) (v : JVal) (h : k ≠ k') :
    ∀ p ∈ [(k, v)], p.1 ≠ k' := by
  intro p hp
  simp only [List.mem_singleton] at hp
  subst hp
  exact h

/-! ## Claim theorems -/

/-- C1: for every worker whose ProcessRunner reaches process termination
(main.py:338-346), exit code 0 yields persisted status `stopped` with
`exit_code` 0, and any non-zero exit code yields status `crashed` with
`exit_code` equal to that code — in particular the status is never `error`. -/
theorem C1_exit_code_mapping (bots : Bots) (bot_id : String) (return_code : Int)
    (now : String) (hok : histOK bots bot_id = true) :
    ∃ bots', run_bot_exit bots bot_id return_code now = .ok bots' ∧
      dget (getRec bots' bot_id) "status" =
        some (.s (if return_code = 0 then "stopped" else "crashed")) ∧
      dget (getRec bots' bot_id) "exit_code" = some (.i return_code) ∧
      dget (getRec bots' bot_id) "status" ≠ some (.s "error") := by
  by_cases hc : return_code = 0
  · subst hc
    have hU : run_bot_exit bots bot_id 0 now =
        .ok (dset bots bot_id (mergeKw [("exit_code", .i 0)] (setAR none
          (dset (baseRec bots bot_id "stopped" now) "status_history"
            (.arr (capHist (getHist bots bot_id ++
              [.obj (mkEntry "stopped" now [("exit_code", .i 0)])]))))))) := by
      unfold run_bot_exit
      rw [if_pos (show ((0 : Int) == 0) = true from rfl)]
      exact update_bot_state_ok bots bot_id "stopped" none [("exit_code", .i 0)] now hok
    refine ⟨_, hU, ?_, ?_, ?_⟩
    · rw [getRec_dset, if_pos rfl]
      exact dget_mut_status bots bot_id "stopped" now none _ _
        (singleton_kw_ne _ _ _ (by decide))
    · rw [getRec_dset, mergeKw_singleton, dget_dset_self]
    · rw [getRec_dset, dget_mut_status bots bot_id "stopped" now none _ _
        (singleton_kw_ne _ _ _ (by decide))]
      simp
  · have hU : run_bot_exit bots bot_id return_code now =
        .ok (dset bots bot_id (mergeKw [("exit_code", .i return_code)] (setAR none
          (dset (baseRec bots bot_id "crashed" now) "status_history"
            (.arr (capHist (getHist bots bot_id ++
              [.obj (mkEntry "crashed" now [("exit_code", .i return_code)])]))))))) := by
      unfold run_bot_exit
      rw [if_neg (by simp only [beq_iff_eq]; exact hc)]
      exact update_bot_state_ok bots bot_id "crashed" none
        [("exit_code", .i return_code)] now hok
    refine ⟨_, hU, ?_, ?_, ?_⟩
    · rw [getRec_dset, if_neg hc]
      exact dget_mut_status bots bot_id "crashed" now none _ _
        (singleton_kw_ne _ _ _ (by decide))
    · rw [getRec_dset, mergeKw_singleton, dget_dset_self]
    · rw [getRec_dset, dget_mut_status bots bot_id "crashed" now none _ _
        (singleton_kw_ne _ _ _ (by decide))]
      simp

/-- Witness for C1 at the concrete exit code 7 of a fresh store. -/
theorem C1_exit_code_mapping_witness :
    histOK [] "w" = true ∧
    ∃ bots', run_bot_exit [] "w" 7 "t" = .ok bots' ∧
      dget (getRec bots' "w") "status" = some (.s (if (7 : Int) = 0 then "stopped" else "crashed")) ∧
      dget (getRec bots' "w") "exit_code" = some (.i 7) ∧
      dget (getRec bots' "w") "status" ≠ some (.s "error") :=
  ⟨rfl, C1_exit_code_mapping [] "w" 7 "t" rfl⟩

/-- C3: a transition call (`update_bot_state`, main.py:140-144) always leaves
the stored history with at most 50 entries, equal to the 50-entry truncation
of the old history with the new entry appended; in particular it is a suffix
of that append, so eviction is oldest-first and the surviving entries keep
their chronological (append) order.  Applied along any sequence of transition
calls from the empty history of a fresh record, the bound holds forever. -/
theorem C3_history_bounded_fifo (bots : Bots) (bot_id status : String)
    (auto_restart : Option Bool) (kwargs : List (String × JVal)) (now : String)
    (hkw : ∀ p ∈ kwargs, p.1 ≠ "status_history")
    (hok : histOK bots bot_id = true) :
    ∃ bots', update_bot_state bots bot_id status auto_restart kwargs now = .ok bots' ∧
      (getHist bots' bot_id).length ≤ 50 ∧
      getHist bots' bot_id <:+ (getHist bots bot_id ++ [.obj (mkEntry status now kwargs)]) ∧
      getHist bots' bot_id = capHist (getHist bots bot_id ++ [.obj (mkEntry status now kwargs)]) := by
  refine ⟨_, update_bot_state_ok bots bot_id status auto_restart kwargs now hok, ?_⟩
  rw [getHist_after bots bot_id status now auto_restart kwargs _ hkw]
  exact ⟨capHist_length_le _, capHist_suffix _, rfl⟩

/-- Witness for C3 on a concrete transition of a fresh store. -/
theorem C3_history_bounded_fifo_witness :
    (∀ p ∈ [(("pid" : String), JVal.i 3)], p.1 ≠ "status_history") ∧
    histOK [] "w" = true ∧
    ∃ bots', update_bot_state [] "w" "starting" none [("pid", .i 3)] "t" = .ok bots' ∧
      (getHist bots' "w").length ≤ 50 ∧
      getHist bots' "w" <:+ (getHist [] "w" ++ [.obj (mkEntry "starting" "t" [("pid", .i 3)])]) ∧
      getHist bots' "w" = capHist (getHist [] "w" ++ [.obj (mkEntry "starting" "t" [("pid", .i 3)])]) :=
  ⟨by decide, rfl, C3_history_bounded_fifo [] "w" "starting" none [("pid", .i 3)] "t" (by decide) rfl⟩

/-- C4: after any transition call the record's `status` field equals the
`status` of the most recent `status_history` entry (and it is present). -/
theorem C4_status_matches_last_history (bots : Bots) (bot_id status : String)
    (auto_restart : Option Bool) (kwargs : List (String × JVal)) (now : String)
    (hkw : ∀ p ∈ kwargs, p.1 ≠ "status_history")
    (hok : histOK bots bot_id = true) :
    ∃ bots', update_bot_state bots bot_id status auto_restart kwargs now = .ok bots' ∧
      (getHist bots' bot_id).getLast? = some (.obj (mkEntry status now kwargs)) ∧
      dget (getRec bots' bot_id) "status" = dget (mkEntry status now kwargs) "status" ∧
      (dget (getRec bots' bot_id) "status").isSome = true := by
  refine ⟨_, update_bot_state_ok bots bot_id status auto_restart kwargs now hok, ?_, ?_, ?_⟩
  · rw [getHist_after bots bot_id status now auto_restart kwargs _ hkw]
    obtain ⟨h', hcap⟩ := capHist_concat (getHist bots bot_id) (.obj (mkEntry status now kwargs))
    rw [hcap, List.getLast?_concat]
  · rw [getRec_dset]
    show dget (mergeKw kwargs _) "status" = dget (mergeKw kwargs _) "status"
    apply dget_mergeKw_congr
    rw [dget_setAR_ne _ _ _ (by decide), dget_dset_ne _ _ _ _ (by decide), dget_baseRec_status]
    rfl
  · rw [getRec_dset]
    apply dget_mergeKw_isSome
    rw [dget_setAR_ne _ _ _ (by decide), dget_dset_ne _ _ _ _ (by decide), dget_baseRec_status]
    rfl

/-- Witness for C4 on a concrete transition. -/
theorem C4_status_matches_last_history_witness :
    (∀ p ∈ [(("exit_code" : String), JVal.i 1)], p.1 ≠ "status_history") ∧
    histOK [("w", [("status", .s "running"), ("status_history", .arr [])])] "w" = true ∧
    ∃ bots', update_bot_state [("w", [("status", .s "running"), ("status_history", .arr [])])]
        "w" "crashed" none [("exit_code", .i 1)] "t" = .ok bots' ∧
      (getHist bots' "w").getLast? = some (.obj (mkEntry "crashed" "t" [("exit_code", .i 1)])) ∧
      dget (getRec bots' "w") "status" = dget (mkEntry "crashed" "t" [("exit_code", .i 1)]) "status" ∧
      (dget (getRec bots' "w") "status").isSome = true :=
  ⟨by decide, rfl, C4_status_matches_last_history _ "w" "crashed" none [("exit_code", .i 1)] "t"
    (by decide) rfl⟩

/-- C9: `get_bot_state` on an id with no record returns the empty dict — no
exception and no distinguished not-found signal; being a pure read it also
leaves the store unchanged. -/
theorem C9_get_absent_empty (bots : Bots) (bot_id : String)
    (h : dget bots bot_id = none) :
    get_bot_state bots bot_id = [] := by
  unfold get_bot_state
  rw [h]
  rfl

/-- Witness for C9 on a store that holds a different id. -/
theorem C9_get_absent_empty_witness :
    dget ([("x", [("status", JVal.s "running")])] : Bots) "w" = none ∧
    get_bot_state [("x", [("status", JVal.s "running")])] "w" = [] :=
  ⟨rfl, C9_get_absent_empty _ "w" rfl⟩

/-- C2 fails as stated: a record with status `running` whose `auto_restart`
key is absent — so its flag does not equal true — is still returned by
`get_auto_start_bots`, because the source defaults the absent flag to `True`
(`bot_state.get('auto_restart', True)`, main.py:174). -/
theorem C2_counterexample :
    get_auto_start_bots [("w1", [("status", .s "running")])] = ["w1"] ∧
    dget ([("status", JVal.s "running")] : Jobj) "auto_restart" ≠ some (.b true) := by
  refine ⟨rfl, ?_⟩
  simp [dget]

/-- C2 amended: on stores whose `auto_restart` fields are booleans (the only
values the source writes), `get_auto_start_bots` returns exactly the ids of
records whose `auto_restart` is true or absent (the absent flag defaults to
true) and whose status equals `running`. -/
theorem C2_auto_start_amended (bots : Bots) (r : String)
    (hb : arBoolOK bots = true) :
    r ∈ get_auto_start_bots bots ↔
      ∃ rec : Jobj, (r, rec) ∈ bots ∧
        dget rec "auto_restart" ≠ some (.b false) ∧
        dget rec "status" = some (.s "running") := by
  unfold get_auto_start_bots
  rw [List.mem_map]
  unfold arBoolOK at hb
  rw [List.all_eq_true] at hb
  constructor
  · rintro ⟨⟨id, rec⟩, hmem, hfst⟩
    rw [List.mem_filter] at hmem
    obtain ⟨hin, hcond⟩ := hmem
    rw [Bool.and_eq_true] at hcond
    obtain ⟨h1, h2⟩ := hcond
    simp only at hfst h1 h2
    subst hfst
    refine ⟨rec, hin, ?_, ?_⟩
    · intro hfalse
      rw [hfalse] at h1
      simp [truthy] at h1
    · rcases hs : dget rec "status" with _ | v
      · rw [hs] at h2
        simp [pyEqStr] at h2
      · rw [hs] at h2
        simp only [Option.getD_some] at h2
        cases v with
        | s str =>
          simp only [pyEqStr, beq_iff_eq] at h2
          rw [h2]
        | i n => simp [pyEqStr] at h2
        | b bv => simp [pyEqStr] at h2
        | null => simp [pyEqStr] at h2
        | arr l => simp [pyEqStr] at h2
        | obj d => simp [pyEqStr] at h2
  · rintro ⟨rec, hin, hne, hst⟩
    refine ⟨(r, rec), ?_, rfl⟩
    rw [List.mem_filter]
    refine ⟨hin, ?_⟩
    rw [Bool.and_eq_true]
    constructor
    · rcases har : dget rec "auto_restart" with _ | v
      · simp [truthy]
      · have hv := hb (r, rec) hin
        simp only at hv
        rw [har] at hv
        cases v with
        | b bv =>
          cases bv with
          | false => exact absurd har hne
          | true => simp [truthy]
        | s str => simp at hv
        | i n => simp at hv
        | null => simp at hv
        | arr l => simp at hv
        | obj d => simp at hv
    · simp only [hst, Option.getD_some, pyEqStr, beq_iff_eq]

/-- Witness for the amended C2 on a concrete two-record store. -/
theorem C2_auto_start_amended_witness :
    arBoolOK [("w", [("auto_restart", JVal.b true), ("status", .s "running")]),
              ("v", [("auto_restart", JVal.b false), ("status", .s "running")])] = true ∧
    ("w" ∈ get_auto_start_bots
        [("w", [("auto_restart", JVal.b true), ("status", .s "running")]),
         ("v", [("auto_restart", JVal.b false), ("status", .s "running")])] ↔
      ∃ rec : Jobj,
        ("w", rec) ∈ [("w", [("auto_restart", JVal.b true), ("status", JVal.s "running")]),
         ("v", [("auto_restart", JVal.b false), ("status", JVal.s "running")])] ∧
        dget rec "auto_restart" ≠ some (.b false) ∧
        dget rec "status" = some (.s "running")) :=
  ⟨rfl, C2_auto_start_amended _ "w" rfl⟩

/-- C7: `stop_bot_persistent` on an id absent from the running registry
returns the not-running error (main.py:391-392) and leaves the registry and
the persisted state untouched (no transition is recorded and no state write
happens, since the only write site is the `update_bot_state` call it never
reaches). -/
theorem C7_stop_not_running (termRaises : Bool) (running : List String)
    (bots : Bots) (bot_id : String) (now : String)
    (h : running.contains bot_id = false) :
    stop_bot_persistent termRaises running bots bot_id now =
      .ok (.notRunning, running, bots) := by
  unfold stop_bot_persistent
  rw [h]
  rfl

/-- Witness for C7 on a registry that runs a different worker. -/
theorem C7_stop_not_running_witness :
    (["x"].contains "w") = false ∧
    stop_bot_persistent false ["x"] [("w", [("status", JVal.s "stopped")])] "w" "t" =
      .ok (.notRunning, ["x"], [("w", [("status", JVal.s "stopped")])]) :=
  ⟨rfl, C7_stop_not_running false ["x"] _ "w" "t" rfl⟩

/-- C10: `stop_bot_persistent` on an id present in the running registry
always succeeds — the terminate/wait/kill block swallows every exception
(main.py:397-405), so the outcome does not depend on it — removes the id from
the registry and records a `stopped` transition with `stopped_by = 'user'`,
which becomes both the record's fields and the newest history entry. -/
theorem C10_stop_running (termRaises : Bool) (running : List String)
    (bots : Bots) (bot_id : String) (now : String)
    (hrun : running.contains bot_id = true) (hok : histOK bots bot_id = true) :
    ∃ bots', stop_bot_persistent termRaises running bots bot_id now =
        .ok (.stopped, running.erase bot_id, bots') ∧
      dget (getRec bots' bot_id) "status" = some (.s "stopped") ∧
      dget (getRec bots' bot_id) "stopped_by" = some (.s "user") ∧
      (getHist bots' bot_id).getLast? =
        some (.obj (mkEntry "stopped" now [("stopped_by", .s "user")])) := by
  have hU : stop_bot_persistent termRaises running bots bot_id now =
      .ok (.stopped, running.erase bot_id,
        dset bots bot_id (mergeKw [("stopped_by", .s "user")] (setAR none
          (dset (baseRec bots bot_id "stopped" now) "status_history"
            (.arr (capHist (getHist bots bot_id ++
              [.obj (mkEntry "stopped" now [("stopped_by", .s "user")])]))))))) := by
    unfold stop_bot_persistent
    rw [hrun]
    simp only [Bool.not_true, Bool.false_eq_true, if_false, if_pos rfl, if_true,
      update_bot_state_ok bots bot_id "stopped" none [("stopped_by", .s "user")] now hok]
  refine ⟨_, hU, ?_, ?_, ?_⟩
  · rw [getRec_dset]
    exact dget_mut_status bots bot_id "stopped" now none _ _
      (singleton_kw_ne _ _ _ (by decide))
  · rw [getRec_dset, mergeKw_singleton, dget_dset_self]
  · rw [getHist_after bots bot_id "stopped" now none _ _
      (singleton_kw_ne _ _ _ (by decide))]
    obtain ⟨h', hcap⟩ := capHist_concat (getHist bots bot_id)
      (.obj (mkEntry "stopped" now [("stopped_by", .s "user")]))
    rw [hcap, List.getLast?_concat]

/-- Witness for C10: stopping a running worker with the process-kill step
raising. -/
theorem C10_stop_running_witness :
    (["w"].contains "w") = true ∧
    histOK [] "w" = true ∧
    ∃ bots', stop_bot_persistent true ["w"] [] "w" "t" =
        .ok (.stopped, ["w"].erase "w", bots') ∧
      dget (getRec bots' "w") "status" = some (.s "stopped") ∧
      dget (getRec bots' "w") "stopped_by" = some (.s "user") ∧
      (getHist bots' "w").getLast? =
        some (.obj (mkEntry "stopped" "t" [("stopped_by", .s "user")])) :=
  ⟨rfl, rfl, C10_stop_running true ["w"] [] "w" "t" rfl rfl⟩

/-- C6 fails as stated: the directory-existence check precedes the
running-registry check (main.py:360-366), so an id that is in the running
registry while its worker directory is missing gets the not-found result, not
the already-running one. -/
theorem C6_counterexample :
    ("w" ∈ ["w"]) ∧
    start_bot_persistent false ["a.py"] ["w"] [] "w" true "t" =
      .ok (.notFound, [], false) ∧
    StartResult.notFound ≠ StartResult.alreadyRunning := by
  refine ⟨by simp, rfl, by decide⟩

/-- C6 amended: for every id in the running registry whose worker directory
exists, `start_bot_persistent` returns the already-running error, leaves the
persisted state unchanged, spawns no ProcessRunner thread and therefore opens
no duplicate log writer, and records no transition. -/
theorem C6_start_already_running_amended (files : List String)
    (running : List String) (bots : Bots) (bot_id : String)
    (auto_restart : Bool) (now : String)
    (hrun : running.contains bot_id = true) :
    start_bot_persistent true files running bots bot_id auto_restart now =
      .ok (.alreadyRunning, bots, false) := by
  unfold start_bot_persistent
  rw [hrun]
  rfl

/-- Witness for the amended C6. -/
theorem C6_start_already_running_amended_witness :
    (["w"].contains "w") = true ∧
    start_bot_persistent true ["a.py"] ["w"] [("w", [("status", JVal.s "running")])]
        "w" true "t" =
      .ok (.alreadyRunning, [("w", [("status", JVal.s "running")])], false) :=
  ⟨rfl, C6_start_already_running_amended ["a.py"] ["w"] _ "w" true "t" rfl⟩

/-- C5 fails as stated: with the config `{'a': 5}` (an existing scalar on the
path prefix), `set_config('a.b', 1)` raises a `TypeError` instead of creating
the intermediate node, and `get_config('a.b', 7)` on that absent path also
raises instead of returning the default. -/
theorem C5_counterexample :
    set_config [("a", JVal.i 5)] "a.b" (.i 1) = .error () ∧
    get_config [("a", JVal.i 5)] "a.b" (.i 7) = .error () :=
  ⟨rfl, rfl⟩

/-- C5 amended: restricted to dotted paths that never cross an existing
non-dict value, `set_config` succeeds — creating intermediate dicts as
needed — and `get_config` of the same path then returns the written value;
and `get_config` of a path that is absent behind dict-only nodes returns the
default without raising. -/
theorem C5_config_roundtrip_amended (config : Jobj) (key : String) (v dflt : JVal) :
    (safePath config (keySplit key) = true →
      ∃ config', set_config config key v = .ok config' ∧
        get_config config' key dflt = .ok v) ∧
    (absentPath (.obj config) (keySplit key) = true →
      get_config config key dflt = .ok dflt) := by
  constructor
  · intro hs
    obtain ⟨c', h1, h2⟩ := set_get_safe (keySplit key) config v dflt (keySplit_ne_nil key) hs
    exact ⟨c', h1, h2⟩
  · intro ha
    exact get_absent (keySplit key) _ dflt ha

/-- Witness for the amended C5: the spec's round-trip example and its
absent-path example, on the default config document's top level. -/
theorem C5_config_roundtrip_amended_witness :
    safePath [("auto_start", JVal.b true)] (keySplit "settings.log_retention_days") = true ∧
    absentPath (.obj [("auto_start", JVal.b true)]) (keySplit "a.b.c") = true ∧
    (∃ config', set_config [("auto_start", JVal.b true)] "settings.log_retention_days"
        (.i 14) = .ok config' ∧
      get_config config' "settings.log_retention_days" (.i 7) = .ok (.i 14)) ∧
    get_config [("auto_start", JVal.b true)] "a.b.c" (.i 7) = .ok (.i 7) :=
  ⟨rfl, rfl,
   (C5_config_roundtrip_amended _ "settings.log_retention_days" (.i 14) (.i 7)).1 rfl,
   (C5_config_roundtrip_amended _ "a.b.c" (.i 14) (.i 7)).2 rfl⟩

/-- C8: entry-point resolution (main.py:240-264).  `resolve_entry` yields
nothing exactly when the directory has no eligible `.py` file; when no
eligible file bears one of the five priority names (case-insensitively) it
picks the first eligible file in directory scan order; when priority name
number `i` is the highest-priority name matched by some eligible file, it
picks the first eligible file matching that name; and the chosen script is
recorded in the record's `command` field by the `running` transition
(main.py:319-325). -/
theorem C8_entry_point_resolution (files : List String) :
    (resolve_entry files = none ↔ files.filter isPy = []) ∧
    ((∀ f ∈ files.filter isPy, strLower f ∉ commonNames) →
      resolve_entry files = (files.filter isPy).head?) ∧
    (∀ i, i < commonNames.length →
      (∃ f ∈ files.filter isPy, strLower f = commonNames.getD i "") →
      (∀ j, j < i → ∀ f ∈ files.filter isPy, strLower f ≠ commonNames.getD j "") →
      resolve_entry files =
        (files.filter isPy).find? (fun f => strLower f == commonNames.getD i "")) ∧
    (∀ (bots : Bots) (bot_id python_executable : String) (pid : Int) (now c : String),
      resolve_entry files = some c →
      histOK bots bot_id = true →
      ∃ bots', run_bot_start bots bot_id python_executable files pid now = .ok bots' ∧
        dget (getRec bots' bot_id) "command" =
          some (.s (python_executable ++ " " ++ c))) := by
  refine ⟨?_, ?_, ?_, ?_⟩
  · unfold resolve_entry
    by_cases hp : (files.filter isPy).isEmpty
    · rw [if_pos hp]
      simp [List.isEmpty_iff.mp hp]
    · rw [if_neg hp]
      have hne : files.filter isPy ≠ [] := by simpa [List.isEmpty_iff] using hp
      cases hFS : (commonNames.findSome? fun n =>
          (files.filter isPy).find? (fun f => strLower f == n)) with
      | some f => simp [hne]
      | none =>
        obtain ⟨a, ha⟩ := Option.isSome_iff_exists.1 (List.head?_isSome.2 hne)
        simp [ha, hne]
  · intro hyp
    have hFS : (commonNames.findSome? fun n =>
        (files.filter isPy).find? (fun f => strLower f == n)) = none := by
      rw [List.findSome?_eq_none_iff]
      intro n hn
      rw [List.find?_eq_none]
      intro x hx
      simp only [beq_iff_eq]
      exact fun h => hyp x hx (h ▸ hn)
    unfold resolve_entry
    by_cases hp : (files.filter isPy).isEmpty
    · rw [if_pos hp, List.isEmpty_iff.mp hp]
      rfl
    · rw [if_neg hp, hFS]
  · intro i hi hex hlt
    obtain ⟨g, hgmem, hgp⟩ := hex
    have hne : files.filter isPy ≠ [] := fun h => by simp [h] at hgmem
    have hpe : ¬((files.filter isPy).isEmpty = true) := by
      simpa [List.isEmpty_iff] using hne
    have hsome : ((files.filter isPy).find?
        (fun f => strLower f == commonNames.getD i "")).isSome := by
      rw [List.find?_isSome]
      exact ⟨g, hgmem, by simp [hgp]⟩
    obtain ⟨c, hc⟩ := Option.isSome_iff_exists.1 hsome
    have hnone : ∀ j, j < i →
        ((files.filter isPy).find? (fun f => strLower f == commonNames.getD j "")) = none := by
      intro j hj
      rw [List.find?_eq_none]
      intro x hx
      simp only [beq_iff_eq]
      exact hlt j hj x hx
    unfold resolve_entry
    rw [if_neg hpe]
    have hi5 : i < 5 := by simpa [commonNames] using hi
    interval_cases i
    · simp only [commonNames, List.getD_cons_zero] at hc ⊢
      rw [findSome?_cons_some (fun n => (files.filter isPy).find? (fun f => strLower f == n)) _ _ _ hc, hc]
    · have h0 := hnone 0 (by omega)
      simp only [commonNames, List.getD_cons_zero, List.getD_cons_succ] at h0 hc ⊢
      rw [findSome?_cons_none (fun n => (files.filter isPy).find? (fun f => strLower f == n)) _ _ h0, findSome?_cons_some (fun n => (files.filter isPy).find? (fun f => strLower f == n)) _ _ _ hc, hc]
    · have h0 := hnone 0 (by omega)
      have h1 := hnone 1 (by omega)
      simp only [commonNames, List.getD_cons_zero, List.getD_cons_succ] at h0 h1 hc ⊢
      rw [findSome?_cons_none (fun n => (files.filter isPy).find? (fun f => strLower f == n)) _ _ h0, findSome?_cons_none (fun n => (files.filter isPy).find? (fun f => strLower f == n)) _ _ h1,
        findSome?_cons_some (fun n => (files.filter isPy).find? (fun f => strLower f == n)) _ _ _ hc, hc]
    · have h0 := hnone 0 (by omega)
      have h1 := hnone 1 (by omega)
      have h2 := hnone 2 (by omega)
      simp only [commonNames, List.getD_cons_zero, List.getD_cons_succ] at h0 h1 h2 hc ⊢
      rw [findSome?_cons_none (fun n => (files.filter isPy).find? (fun f => strLower f == n)) _ _ h0, findSome?_cons_none (fun n => (files.filter isPy).find? (fun f => strLower f == n)) _ _ h1,
        findSome?_cons_none (fun n => (files.filter isPy).find? (fun f => strLower f == n)) _ _ h2, findSome?_cons_some (fun n => (files.filter isPy).find? (fun f => strLower f == n)) _ _ _ hc, hc]
    · have h0 := hnone 0 (by omega)
      have h1 := hnone 1 (by omega)
      have h2 := hnone 2 (by omega)
      have h3 := hnone 3 (by omega)
      simp only [commonNames, List.getD_cons_zero, List.getD_cons_succ] at h0 h1 h2 h3 hc ⊢
      rw [findSome?_cons_none (fun n => (files.filter isPy).find? (fun f => strLower f == n)) _ _ h0, findSome?_cons_none (fun n => (files.filter isPy).find? (fun f => strLower f == n)) _ _ h1,
        findSome?_cons_none (fun n => (files.filter isPy).find? (fun f => strLower f == n)) _ _ h2, findSome?_cons_none (fun n => (files.filter isPy).find? (fun f => strLower f == n)) _ _ h3,
        findSome?_cons_some (fun n => (files.filter isPy).find? (fun f => strLower f == n)) _ _ _ hc, hc]
  · intro bots bot_id python_executable pid now c hres hok
    have hU : run_bot_start bots bot_id python_executable files pid now =
        .ok (dset bots bot_id (mergeKw
          [("pid", .i pid), ("start_time", .s now),
           ("command", .s (python_executable ++ " " ++ c))] (setAR none
          (dset (baseRec bots bot_id "running" now) "status_history"
            (.arr (capHist (getHist bots bot_id ++
              [.obj (mkEntry "running" now
                [("pid", .i pid), ("start_time", .s now),
                 ("command", .s (python_executable ++ " " ++ c))])]))))))) := by
      unfold run_bot_start
      rw [hres]
      exact update_bot_state_ok bots bot_id "running" none _ now hok
    refine ⟨_, hU, ?_⟩
    rw [getRec_dset, mergeKw_cons, mergeKw_cons, mergeKw_singleton, dget_dset_self]

/-- Witness for C8: the spec's `util.py`/`helper.py` scenario, a
case-insensitive priority match, and the recorded command. -/
theorem C8_entry_point_resolution_witness :
    (∀ f ∈ ["util.py", "helper.py"].filter isPy, strLower f ∉ commonNames) ∧
    resolve_entry ["util.py", "helper.py"] = (["util.py", "helper.py"].filter isPy).head? ∧
    resolve_entry ["x.py", "MAIN.py", "bot.py"] =
      (["x.py", "MAIN.py", "bot.py"].filter isPy).find?
        (fun f => strLower f == commonNames.getD 0 "") ∧
    (∃ bots', run_bot_start [] "w" "python" ["x.py", "MAIN.py", "bot.py"] 5 "t" = .ok bots' ∧
      dget (getRec bots' "w") "command" = some (.s ("python" ++ " " ++ "MAIN.py"))) := by
  refine ⟨by decide, ?_, ?_, ?_⟩
  · exact (C8_entry_point_resolution ["util.py", "helper.py"]).2.1 (by decide)
  · exact (C8_entry_point_resolution _).2.2.1 0 (by decide) (by decide)
      (fun j hj => absurd hj (Nat.not_lt_zero j))
  · exact (C8_entry_point_resolution _).2.2.2 [] "w" "python" 5 "t" "MAIN.py" rfl rfl

end Hosters
